import Mathlib

/-!
Shallow embedding of the bkolad/galaxy (gTorrent) BitTorrent client and
proofs about it.

The embedding follows the Go sources:
  * `src/torrent/decoder.go` — the torrent-metadata decoder (`Info`,
    `CalculateLastPieceSize`, `Decode`, `pieceHashes` and friends);
  * `src/tracker/httpTracker.go` — the HTTP tracker client (`prepareURL`)
    and the peer session (`simplePeer` with its `NewPacket` dispatch);
  * `src/main.go` — the program's startup sequence.

Go strings that may hold raw bytes (piece hashes, bencoded data) are
modelled as `List UInt8`; Go `int` is modelled as `Int`, with Go's
truncated division and its division-by-zero panic made explicit
(`goDiv`/`goMod` return `none` where Go panics).  Functions of the
repository that are not among the given sources (the bencode parser's
`String`/`PrettyString` re-encoders and the `crypto/sha1` digest) enter
the model as parameters collected in `ExternalFns`.
-/

namespace GTorrent

/-- A Go string viewed as its bytes (Go strings are byte strings). -/
abbrev GoStr := List UInt8

/-- Bytes of an ASCII string literal, used for the Go source's string
literals (all of them ASCII). -/
def gs (s : String) : GoStr :=
  s.data.map (fun c => UInt8.ofNat c.toNat)

/-- Back from bytes to a printable string, for building error messages the
way `errors.New(key + "...")` does. -/
def goStrToString (s : GoStr) : String :=
  String.mk (s.map (fun b => Char.ofNat b.toNat))

/-- Go's `%` on `int`: truncated remainder, and a panic (modelled as
`none`) when the divisor is zero. -/
def goMod (a b : Int) : Option Int :=
  if b = 0 then none else some (a.tmod b)

/-- Go's `/` on `int`: truncation toward zero, and a panic (modelled as
`none`) when the divisor is zero. -/
def goDiv (a b : Int) : Option Int :=
  if b = 0 then none else some (a.tdiv b)

/-- `file` of src/torrent/decoder.go. -/
structure GFile where
  length : Int
  path : List GoStr
deriving DecidableEq, Repr

/-- `Info` of src/torrent/decoder.go: the decoded content of a torrent
file. -/
structure Info where
  Announce : GoStr
  AnnounceList : List (List GoStr)
  PieceSize : Int
  Length : Int
  Name : GoStr
  files : List GFile
  PieceHashes : List GoStr
  InfoHash : GoStr
  ChunkSize : Int
deriving DecidableEq, Repr

/-- `chunkSize` of src/torrent/decoder.go. -/
def chunkSizeC : Int := 16384

/-- `Info.CalculateLastPieceSize` of src/torrent/decoder.go (lines 38-48):
`lastPieceSize := Length % PieceSize; numberOfPieces := Length / PieceSize;
if lastPieceSize != 0 { numberOfPieces++ } else { lastPieceSize = PieceSize }`.
The Go `%` and `/` panic when `PieceSize` is zero, hence the `Option`. -/
def CalculateLastPieceSize (info : Info) : Option (Int × Int) :=
  match goMod info.Length info.PieceSize, goDiv info.Length info.PieceSize with
  | some lastPieceSize, some numberOfPieces =>
    if lastPieceSize ≠ 0 then some (lastPieceSize, numberOfPieces + 1)
    else some (info.PieceSize, numberOfPieces)
  | _, _ => none

/-! ### Piece hashes (src/torrent/decoder.go, `pieceHashes`) -/

/-- The slicing loop inside `pieceHashes`, with an explicit fuel so that
it is structurally recursive (each iteration consumes 20 bytes, so any
fuel of at least `xs.length` runs the loop to its end). -/
def hashChunksGo (fuel : Nat) (xs : GoStr) : List GoStr :=
  match fuel with
  | 0 => []
  | fuel + 1 =>
    if 20 ≤ xs.length then xs.take 20 :: hashChunksGo fuel (xs.drop 20) else []

/-- The slicing loop inside `pieceHashes`:
`for i := 0; i <= len-20; i += 20 { append(pieceHashes, pieces[i:i+20]) }` —
as long as at least 20 bytes remain, the next 20 form a digest. -/
def hashChunks (xs : GoStr) : List GoStr :=
  hashChunksGo xs.length xs

/-- `pieceHashes` of src/torrent/decoder.go (lines 252-264). -/
def pieceHashes (pieces : GoStr) : Except String (List GoStr) :=
  if pieces.length % 20 ≠ 0 then
    Except.error "piece hash has to be 20 bytes long"
  else
    Except.ok (hashChunks pieces)

/-! ### The bencode decoder (src/torrent/decoder.go, `Decode`) -/

/-- The parser's `Bencode` values (`bStr`, `bInt`, `bList`, `bDict` with
their `value` fields as decoder.go reads them; the parser itself is
outside the given sources).  A dictionary is its ordered key/value
pairs. -/
inductive Bencode where
  | bStr (value : GoStr)
  | bInt (value : Int)
  | bList (value : List Bencode)
  | bDict (value : List (GoStr × Bencode))

/-- `bDict.get`: the value stored under a key. -/
def bdGet (d : List (GoStr × Bencode)) (key : GoStr) : Option Bencode :=
  match d with
  | [] => none
  | (k, v) :: rest => if k = key then some v else bdGet rest key

/-- Modelled from the spec: the repository functions `Decode` calls whose
code is not among the given sources — the `crypto/sha1` digest of a
string, the parser's `String` re-encoder (the encoded string form of a
bencode value) and its `PrettyString`. -/
structure ExternalFns where
  sha1 : String → GoStr
  encString : Bencode → String
  prettyString : Bencode → GoStr

/-- `wrongTypeError` of src/torrent/decoder.go. -/
def wrongTypeErrorStr (str t : String) : String :=
  "wrong type, " ++ "-" ++ str ++ "- has to be" ++ t

/-- `fromDict` of src/torrent/decoder.go. -/
def fromDict (dict : List (GoStr × Bencode)) (key : GoStr) :
    Except String Bencode :=
  match bdGet dict key with
  | none => Except.error (goStrToString key ++ " is missing in the dictionary")
  | some v => Except.ok v

/-- `intValue` of src/torrent/decoder.go: Go's `(int, bool, error)` triple
becomes `Int × Bool × Option String`. -/
def intValue (dict : List (GoStr × Bencode)) (key : GoStr) :
    Int × Bool × Option String :=
  match bdGet dict key with
  | none => (0, false, some (goStrToString key ++ " is missing in the dictionary"))
  | some (Bencode.bInt n) => (n, true, none)
  | some _ => (0, true, some (wrongTypeErrorStr (goStrToString key) "int"))

/-- `strValue` of src/torrent/decoder.go. -/
def strValue (dict : List (GoStr × Bencode)) (key : GoStr) :
    Except String GoStr :=
  match bdGet dict key with
  | none => Except.error (goStrToString key ++ " is missing in the dictionary")
  | some (Bencode.bStr s) => Except.ok s
  | some _ => Except.error (wrongTypeErrorStr (goStrToString key) "string")

/-- The loop of `announceList`: every entry must itself be a `bList`; its
elements are rendered with `PrettyString`. -/
def announceEntries (ext : ExternalFns) : List Bencode →
    Except String (List (List GoStr))
  | [] => Except.ok []
  | Bencode.bList inner :: rest =>
    match announceEntries ext rest with
    | Except.error e => Except.error e
    | Except.ok tail => Except.ok (inner.map ext.prettyString :: tail)
  | _ :: _ => Except.error (wrongTypeErrorStr "announce-list entry" "list")

/-- `announceList` of src/torrent/decoder.go: a missing `announce-list`
key yields `(nil, nil)`, a non-list value an error. -/
def announceListF (ext : ExternalFns) (dict : List (GoStr × Bencode)) :
    Except String (List (List GoStr)) :=
  match bdGet dict (gs "announce-list") with
  | none => Except.ok []
  | some (Bencode.bList ls) => announceEntries ext ls
  | some _ => Except.error (wrongTypeErrorStr "announce-list entry" "list of lists")

/-- The loop of `files`.  `some fs` is a built slice, `none` the Go `nil`
returned (together with a nil error) when an entry's `path` is not a
list.  The unchecked `v.(*bDict)` type assertion panics on a non-dict
entry; the panic is modelled as an error. -/
def filesLoop (ext : ExternalFns) : List Bencode →
    Except String (Option (List GFile))
  | [] => Except.ok (some [])
  | Bencode.bDict d :: rest =>
    (match intValue d (gs "length") with
     | (_, _, some e) => Except.error e
     | (length, _, none) =>
       match bdGet d (gs "path") with
       | none => Except.error (goStrToString (gs "path") ++ " is missing in the dictionary")
       | some (Bencode.bList pl) =>
         (match filesLoop ext rest with
          | Except.error e => Except.error e
          | Except.ok none => Except.ok none
          | Except.ok (some fs) =>
            Except.ok (some (GFile.mk length (pl.map ext.prettyString) :: fs)))
       | some _ => Except.ok none)
  | _ :: _ => Except.error "panic: interface conversion"

/-- `files` of src/torrent/decoder.go: `none` is the Go `nil` slice — the
key being absent, a `path` that is not a list, or a loop that never
appended. -/
def filesF (ext : ExternalFns) (infoDict : List (GoStr × Bencode)) :
    Except String (Option (List GFile)) :=
  match bdGet infoDict (gs "files") with
  | none => Except.ok none
  | some (Bencode.bList bl) =>
    (match filesLoop ext bl with
     | Except.error e => Except.error e
     | Except.ok (some []) => Except.ok none
     | Except.ok r => Except.ok r)
  | some _ => Except.error (wrongTypeErrorStr "files" "list")

/-- `torrentDec.Decode` of src/torrent/decoder.go (lines 56-152), from the
parsed `Bencode` value on (the parser itself is outside the given
sources): each `if err != nil { return nil, err }` of the Go code is one
`match` layer here, in the same order. -/
def decodeBen (ext : ExternalFns) (ben : Bencode) : Except String Info :=
  match ben with
  | Bencode.bDict dict =>
    (match strValue dict (gs "announce") with
     | Except.error e => Except.error e
     | Except.ok announce =>
       match announceListF ext dict with
       | Except.error e => Except.error e
       | Except.ok annList =>
         match fromDict dict (gs "info") with
         | Except.error e => Except.error e
         | Except.ok (Bencode.bDict infoDict) =>
           (match intValue infoDict (gs "piece length") with
            | (_, _, some e) => Except.error e
            | (pieceLength, _, none) =>
              match intValue infoDict (gs "length") with
              | (_, true, some e) => Except.error e
              | (length, isSingleFile, _) =>
                match strValue infoDict (gs "name") with
                | Except.error e => Except.error e
                | Except.ok name =>
                  match filesF ext infoDict with
                  | Except.error e => Except.error e
                  | Except.ok fls =>
                    if fls.isNone && !isSingleFile then
                      Except.error "No files to download in the torrent file"
                    else
                      match strValue infoDict (gs "pieces") with
                      | Except.error e => Except.error e
                      | Except.ok pieces =>
                        match pieceHashes pieces with
                        | Except.error e => Except.error e
                        | Except.ok pieceHash =>
                          Except.ok
                            { Announce := announce
                              AnnounceList := annList
                              PieceSize := pieceLength
                              Length := length
                              Name := name
                              files := fls.getD []
                              PieceHashes := pieceHash
                              InfoHash := ext.sha1 (ext.encString (Bencode.bDict infoDict))
                              ChunkSize := chunkSizeC })
         | Except.ok _ => Except.error (wrongTypeErrorStr "info" "dictionary")
     )
  | _ => Except.error (wrongTypeErrorStr "Torrent content " "dictionary")

/-! ### The peer session (src/tracker/httpTracker.go, package peer) -/

/-- The state of `simplePeer`: its `chocked` (sic) flag, the stored
bitfield and the `interested` flag.  The `msgs` channel and the `net`
transport are not data; outbound traffic is returned explicitly. -/
structure SimplePeer where
  chocked : Bool
  bitfield : GoStr
  interested : Bool
deriving DecidableEq, Repr

/-- An inbound peer-wire message, after frame decoding: one constructor
per case of `NewPacket`'s switch on `packet.ID()` (`have` and a few other
Go names are Lean keywords, hence the `Msg` suffixes).  Payload-carrying
messages carry the decoded payload. -/
inductive InMsg where
  | keepAlaive
  | choke
  | unchoke
  | interestedMsg
  | notInterestedMsg
  | haveMsg (payload : GoStr)
  | bitfieldMsg (payload : GoStr)
  | requestMsg (piece offset size : Nat)
  | pieceMsg (piece offset : Nat) (payload : GoStr)
  | cancelMsg
  | portMsg
  | unknown
deriving DecidableEq, Repr

/-- An outbound message the session hands to its transport.
`request piece offset length` stands for the packet built by
`encodePieceRequest`, `interestedMsg` for `encodeInterested` (the encoders
themselves are outside the given sources; only their arguments matter
here). -/
inductive OutMsg where
  | request (piece offset length : Nat)
  | interestedMsg
deriving DecidableEq, Repr

/-- `simplePeer.onChoke`. -/
def onChoke (p : SimplePeer) : SimplePeer × List OutMsg :=
  ({ p with chocked := true }, [])

/-- `simplePeer.onUnchoke`: clears `chocked` and sends
`encodePieceRequest(0, 0, 16384)`. -/
def onUnchoke (p : SimplePeer) : SimplePeer × List OutMsg :=
  ({ p with chocked := false }, [OutMsg.request 0 0 16384])

/-- `simplePeer.onInterested`. -/
def onInterested (p : SimplePeer) : SimplePeer × List OutMsg :=
  ({ p with interested := true }, [])

/-- `simplePeer.onNotInterested`. -/
def onNotInterested (p : SimplePeer) : SimplePeer × List OutMsg :=
  ({ p with interested := false }, [])

/-- `simplePeer.onHave`: sends `encodeInterested()`; the payload is unused
and the state untouched. -/
def onHave (p : SimplePeer) (_payload : GoStr) : SimplePeer × List OutMsg :=
  (p, [OutMsg.interestedMsg])

/-- `simplePeer.onBitfield`: stores the bitfield and sends
`encodeInterested()`. -/
def onBitfield (p : SimplePeer) (payload : GoStr) : SimplePeer × List OutMsg :=
  ({ p with bitfield := payload }, [OutMsg.interestedMsg])

/-- `simplePeer.NewPacket`: the dispatch switch.  `onKeepAlive`,
`onRequest`, `onPiece`, `onCancel`, `onPort` and `onUnknown` only log or
do nothing. -/
def NewPacket (p : SimplePeer) : InMsg → SimplePeer × List OutMsg
  | InMsg.keepAlaive => (p, [])
  | InMsg.choke => onChoke p
  | InMsg.unchoke => onUnchoke p
  | InMsg.interestedMsg => onInterested p
  | InMsg.notInterestedMsg => onNotInterested p
  | InMsg.haveMsg payload => onHave p payload
  | InMsg.bitfieldMsg payload => onBitfield p payload
  | InMsg.requestMsg _ _ _ => (p, [])
  | InMsg.pieceMsg _ _ _ => (p, [])
  | InMsg.cancelMsg => (p, [])
  | InMsg.portMsg => (p, [])
  | InMsg.unknown => (p, [])

/-! ### The tracker request (src/tracker/httpTracker.go, package tracker) -/

/-- `init.State` as `prepareURL` reads it. -/
structure InitState where
  Uploaded : Int
  Downloaded : Int
  Left : Int
deriving DecidableEq, Repr

/-- The query parameters `prepareURL` adds (src/tracker/httpTracker.go
lines 59-67), in `params.Add` order.  The `info` argument is the one the
Go function receives; note that only its `Announce` field (the base URL,
not a parameter) is ever read — `info_hash` is the literal `"lol"`. -/
def prepareURLParams (initState : InitState) (peerID : String) (port : Int)
    (_info : Info) : List (String × String) :=
  [("info_hash", "lol"),
   ("peer_id", peerID),
   ("port", toString port),
   ("compact", "1"),
   ("event", "started"),
   ("uploaded", toString initState.Uploaded),
   ("downloaded", toString initState.Downloaded),
   ("left", toString initState.Left)]

/-! ### Startup (src/main.go) -/

/-- `torrent.PeerInfo` (modelled from the spec: the tracker returns an
ordered sequence of (IP, port) pairs; the type itself is outside the given
sources). -/
structure PeerInfo where
  ip : GoStr
  port : Int
deriving DecidableEq, Repr

/-- What becomes of the process after `tracker.Peers()` returns
(src/main.go lines 33-43). -/
inductive MainOutcome where
  | gracefulExit
  | panicIndexOutOfRange
  | connectTo (p : PeerInfo)
deriving DecidableEq, Repr

/-- src/main.go lines 33-43: a tracker error is printed and `main`
returns; otherwise `peers[0]` is read — which, on an empty slice, panics
with an index-out-of-range runtime error — and handed to
`network.NewNetwork`. -/
def mainAfterPeers (res : Except String (List PeerInfo)) : MainOutcome :=
  match res with
  | Except.error _ => MainOutcome.gracefulExit
  | Except.ok peers =>
    match peers with
    | [] => MainOutcome.panicIndexOutOfRange
    | p :: _ => MainOutcome.connectTo p

/-! ### Concrete inputs used by witnesses and counterexamples -/

/-- Stand-ins for the external functions, used to evaluate the decoder on
concrete inputs. -/
def stubExt : ExternalFns where
  sha1 := fun _ => List.replicate 20 0
  encString := fun _ => ""
  prettyString := fun _ => []

/-- A single-file torrent's parsed info dictionary: piece length 2, total
length 5, one 20-byte piece hash. -/
def sampleInfoDict : List (GoStr × Bencode) :=
  [(gs "piece length", Bencode.bInt 2),
   (gs "length", Bencode.bInt 5),
   (gs "name", Bencode.bStr (gs "f")),
   (gs "pieces", Bencode.bStr (List.replicate 20 0))]

/-- A parsed single-file torrent. -/
def sampleBen : Bencode :=
  Bencode.bDict
    [(gs "announce", Bencode.bStr (gs "http://tracker")),
     (gs "info", Bencode.bDict sampleInfoDict)]

/-- What `decodeBen stubExt sampleBen` produces. -/
def sampleInfo : Info where
  Announce := gs "http://tracker"
  AnnounceList := []
  PieceSize := 2
  Length := 5
  Name := gs "f"
  files := []
  PieceHashes := [List.replicate 20 0]
  InfoHash := List.replicate 20 0
  ChunkSize := 16384

/-- Like `sampleBen` but with `piece length` 0: the decoder accepts it. -/
def zeroPieceBen : Bencode :=
  Bencode.bDict
    [(gs "announce", Bencode.bStr (gs "http://tracker")),
     (gs "info", Bencode.bDict
       [(gs "piece length", Bencode.bInt 0),
        (gs "length", Bencode.bInt 5),
        (gs "name", Bencode.bStr (gs "f")),
        (gs "pieces", Bencode.bStr (List.replicate 20 0))])]

/-- What `decodeBen stubExt zeroPieceBen` produces: an `Info` whose
`PieceSize` is 0. -/
def zeroPieceInfo : Info where
  Announce := gs "http://tracker"
  AnnounceList := []
  PieceSize := 0
  Length := 5
  Name := gs "f"
  files := []
  PieceHashes := [List.replicate 20 0]
  InfoHash := List.replicate 20 0
  ChunkSize := 16384

/-- An `Info` with positive `PieceSize` but negative `Length`. -/
def cexInfo : Info where
  Announce := []
  AnnounceList := []
  PieceSize := 2
  Length := -1
  Name := []
  files := []
  PieceHashes := []
  InfoHash := []
  ChunkSize := 16384

/-- An `Info` with `PieceSize` 2 and `Length` 5. -/
def info5 : Info where
  Announce := []
  AnnounceList := []
  PieceSize := 2
  Length := 5
  Name := []
  files := []
  PieceHashes := []
  InfoHash := []
  ChunkSize := 16384

/-- A freshly created peer session that is still choked. -/
def initPeer : SimplePeer where
  chocked := true
  bitfield := []
  interested := false

/-! ### Helper lemmas about the piece-hash slicing loop -/

theorem hashChunksGo_length (fuel : Nat) :
    ∀ xs : GoStr, xs.length ≤ fuel → (hashChunksGo fuel xs).length = xs.length / 20 := by
  induction fuel with
  | zero =>
    intro xs h
    simp only [hashChunksGo, List.length_nil]
    omega
  | succ n ih =>
    intro xs h
    rw [hashChunksGo]
    split
    case isTrue h20 =>
      rw [List.length_cons, ih (xs.drop 20) (by simp only [List.length_drop]; omega),
        List.length_drop]
      omega
    case isFalse h20 =>
      simp only [List.length_nil]
      omega

theorem hashChunksGo_mem (fuel : Nat) :
    ∀ xs c : GoStr, xs.length ≤ fuel → c ∈ hashChunksGo fuel xs → c.length = 20 := by
  induction fuel with
  | zero =>
    intro xs c _ hc
    simp [hashChunksGo] at hc
  | succ n ih =>
    intro xs c h hc
    rw [hashChunksGo] at hc
    split at hc
    case isTrue h20 =>
      rcases List.mem_cons.mp hc with hc | hc
      · subst hc
        rw [List.length_take]
        omega
      · exact ih (xs.drop 20) c (by simp only [List.length_drop]; omega) hc
    case isFalse h20 =>
      simp at hc

theorem hashChunksGo_get (fuel : Nat) :
    ∀ (xs : GoStr) (i : Nat), xs.length ≤ fuel → i < xs.length / 20 →
      (hashChunksGo fuel xs).get? i = some ((xs.drop (20 * i)).take 20) := by
  induction fuel with
  | zero =>
    intro xs i h hi
    omega
  | succ n ih =>
    intro xs i h hi
    have h20 : 20 ≤ xs.length := by omega
    rw [hashChunksGo, if_pos h20]
    cases i with
    | zero => simp
    | succ i =>
      rw [List.get?_cons_succ,
        ih (xs.drop 20) i (by simp only [List.length_drop]; omega)
          (by simp only [List.length_drop]; omega),
        List.drop_drop]
      congr 3
      omega

theorem hashChunks_length (xs : GoStr) : (hashChunks xs).length = xs.length / 20 :=
  hashChunksGo_length xs.length xs le_rfl

theorem hashChunks_mem (xs c : GoStr) (hc : c ∈ hashChunks xs) : c.length = 20 :=
  hashChunksGo_mem xs.length xs c le_rfl hc

theorem hashChunks_get (xs : GoStr) (i : Nat) (hi : i < xs.length / 20) :
    (hashChunks xs).get? i = some ((xs.drop (20 * i)).take 20) :=
  hashChunksGo_get xs.length xs i le_rfl hi

/-! ### The claims -/

/-- C6: `pieceHashes` errors exactly when the input's byte length is not a
multiple of 20; otherwise it returns `length / 20` digests, each 20 bytes,
the i-th being bytes `[20*i, 20*i+20)` of the input in order. -/
theorem pieceHashes_spec (s : GoStr) :
    (s.length % 20 ≠ 0 →
      pieceHashes s = Except.error "piece hash has to be 20 bytes long") ∧
    (s.length % 20 = 0 →
      pieceHashes s = Except.ok (hashChunks s) ∧
      (hashChunks s).length = s.length / 20 ∧
      (∀ c ∈ hashChunks s, c.length = 20) ∧
      (∀ i, i < s.length / 20 →
        (hashChunks s).get? i = some ((s.drop (20 * i)).take 20))) := by
  constructor
  · intro h
    simp [pieceHashes, h]
  · intro h
    exact ⟨by simp [pieceHashes, h], hashChunks_length s,
      fun c hc => hashChunks_mem s c hc, fun i hi => hashChunks_get s i hi⟩

/-- C2: on `Unchoke` the session always sends one block request for piece
0, offset 0, length 16384, whatever its state (the block-selection logic
is a stub). -/
theorem onUnchoke_always_requests_piece0 (s : SimplePeer) :
    NewPacket s InMsg.unchoke =
      ({ s with chocked := false }, [OutMsg.request 0 0 16384]) := rfl

/-- C5: whatever the state and the inbound message, a block request is
emitted only by a step whose resulting `chocked` flag is false; `Choke`
sets the flag and `Unchoke` clears it before requesting. -/
theorem request_only_when_unchoked (s : SimplePeer) (m : InMsg) (p o l : Nat)
    (h : OutMsg.request p o l ∈ (NewPacket s m).2) :
    (NewPacket s m).1.chocked = false ∧
    (NewPacket s InMsg.choke).1.chocked = true ∧
    (NewPacket s InMsg.unchoke).1.chocked = false := by
  refine ⟨?_, rfl, rfl⟩
  cases m <;>
    simp_all [NewPacket, onChoke, onUnchoke, onInterested, onNotInterested,
      onHave, onBitfield]

theorem request_only_when_unchoked_witness :
    (NewPacket initPeer InMsg.unchoke).1.chocked = false ∧
    (NewPacket initPeer InMsg.choke).1.chocked = true ∧
    (NewPacket initPeer InMsg.unchoke).1.chocked = false :=
  request_only_when_unchoked initPeer InMsg.unchoke 0 0 16384 (by decide)

/-- C8: `Choke`/`Unchoke` set and clear `chocked`, `Interested`/
`NotInterested` set and clear `interested`, and each of the four handlers
touches nothing but the session's own state (the record updates leave the
other fields as they were). -/
theorem flag_handlers_spec (s : SimplePeer) :
    NewPacket s InMsg.choke = ({ s with chocked := true }, []) ∧
    NewPacket s InMsg.unchoke =
      ({ s with chocked := false }, [OutMsg.request 0 0 16384]) ∧
    NewPacket s InMsg.interestedMsg = ({ s with interested := true }, []) ∧
    NewPacket s InMsg.notInterestedMsg = ({ s with interested := false }, []) :=
  ⟨rfl, rfl, rfl, rfl⟩

/-- C9: a `Have` message makes the session send `Interested` and change
nothing at all in its state — the announced piece index is dropped, the
payload never read. -/
theorem onHave_sends_interested_state_unchanged (s : SimplePeer) (payload : GoStr) :
    NewPacket s (InMsg.haveMsg payload) = (s, [OutMsg.interestedMsg]) := rfl

/-- C3: the tracker query built by `prepareURL` carries the placeholder
string "lol" as `info_hash` — independently of the torrent's `Info`, so in
particular of its real SHA-1 hash — while `peer_id`, `port`, `uploaded`,
`downloaded` and `left` come from the supplied configuration and state. -/
theorem prepareURL_info_hash_placeholder (initState : InitState)
    (peerID : String) (port : Int) (info : Info) :
    (prepareURLParams initState peerID port info).lookup "info_hash" = some "lol" ∧
    (∀ info2 : Info,
      prepareURLParams initState peerID port info2 =
        prepareURLParams initState peerID port info) ∧
    (prepareURLParams initState peerID port info).lookup "peer_id" = some peerID ∧
    (prepareURLParams initState peerID port info).lookup "port" =
      some (toString port) ∧
    (prepareURLParams initState peerID port info).lookup "uploaded" =
      some (toString initState.Uploaded) ∧
    (prepareURLParams initState peerID port info).lookup "downloaded" =
      some (toString initState.Downloaded) ∧
    (prepareURLParams initState peerID port info).lookup "left" =
      some (toString initState.Left) :=
  ⟨rfl, fun _ => rfl, rfl, rfl, rfl, rfl, rfl⟩

/-- C4 (the code, not the claim): when the tracker call succeeds but
returns no peers, `main` reads `peers[0]` from an empty slice and panics —
an uncontrolled process abort, not a surfaced startup failure. -/
theorem main_empty_peer_list_panics :
    mainAfterPeers (Except.ok []) = MainOutcome.panicIndexOutOfRange := rfl

/-- C10: `CalculateLastPieceSize` is division-by-zero free whenever
`PieceSize > 0` and panics when `PieceSize = 0`; and `Decode` accepts a
torrent whose `piece length` is 0, producing exactly such an `Info`. -/
theorem calculateLastPieceSize_totality :
    (∀ info : Info, 0 < info.PieceSize →
      (CalculateLastPieceSize info).isSome = true) ∧
    (∀ info : Info, info.PieceSize = 0 → CalculateLastPieceSize info = none) ∧
    decodeBen stubExt zeroPieceBen = Except.ok zeroPieceInfo ∧
    zeroPieceInfo.PieceSize = 0 ∧
    CalculateLastPieceSize zeroPieceInfo = none := by
  refine ⟨?_, ?_, by rfl, rfl, by rfl⟩
  · intro info hp
    have h : info.PieceSize ≠ 0 := by omega
    simp only [CalculateLastPieceSize, goMod, goDiv, if_neg h]
    split <;> simp
  · intro info h0
    simp [CalculateLastPieceSize, goMod, goDiv, h0]

/-- C1 (amended: `Length` non-negative as well): for `PieceSize > 0` and
`Length ≥ 0`, `CalculateLastPieceSize` returns the pair whose second
component is `⌈Length / PieceSize⌉` and whose first is
`Length mod PieceSize`, or the full `PieceSize` when that remainder is
zero. -/
theorem calculateLastPieceSize_spec (info : Info)
    (hp : 0 < info.PieceSize) (hl : 0 ≤ info.Length) :
    CalculateLastPieceSize info =
      some (if info.Length % info.PieceSize = 0 then info.PieceSize
              else info.Length % info.PieceSize,
            ⌈(info.Length : ℚ) / (info.PieceSize : ℚ)⌉) := by
  set p := info.PieceSize with hpdef
  set l := info.Length with hldef
  have hp0 : p ≠ 0 := by omega
  have htm : l.tmod p = l % p := Int.tmod_eq_emod hl (by omega)
  have htd : l.tdiv p = l / p := Int.tdiv_eq_ediv hl (by omega)
  have hid : p * (l / p) + l % p = l := Int.ediv_add_emod l p
  have hr0 : 0 ≤ l % p := Int.emod_nonneg l hp0
  have hrp : l % p < p := Int.emod_lt_of_pos l hp
  have hpQ : (0 : ℚ) < (p : ℚ) := by exact_mod_cast hp
  unfold CalculateLastPieceSize goMod goDiv
  rw [if_neg hp0, if_neg hp0]
  dsimp only
  rw [htm, htd]
  by_cases hr : l % p = 0
  · rw [if_neg (by simp [hr]), if_pos hr]
    have hcast : (l : ℚ) / (p : ℚ) = ((l / p : ℤ) : ℚ) := by
      have hlpq : (l : ℚ) = (p : ℚ) * ((l / p : ℤ) : ℚ) := by
        exact_mod_cast (show l = p * (l / p) by linarith [hid])
      rw [hlpq, mul_comm, mul_div_assoc, div_self (ne_of_gt hpQ), mul_one]
    rw [hcast, Int.ceil_intCast]
  · rw [if_pos hr, if_neg hr]
    have hrpos : 0 < l % p := lt_of_le_of_ne hr0 (Ne.symm hr)
    have h1 : ((l / p : ℤ) : ℚ) * (p : ℚ) < (l : ℚ) := by
      exact_mod_cast (show (l / p) * p < l by linarith [hid])
    have h2 : (l : ℚ) ≤ (((l / p : ℤ) : ℚ) + 1) * (p : ℚ) := by
      exact_mod_cast (show l ≤ (l / p + 1) * p by nlinarith [hid, hrp])
    have hceil : ⌈(l : ℚ) / (p : ℚ)⌉ = l / p + 1 := by
      rw [Int.ceil_eq_iff]
      constructor
      · push_cast
        rw [show ((l / p : ℤ) : ℚ) + 1 - 1 = ((l / p : ℤ) : ℚ) by ring,
          lt_div_iff₀ hpQ]
        exact h1
      · rw [div_le_iff₀ hpQ]
        push_cast
        exact h2
    rw [hceil]

theorem calculateLastPieceSize_spec_witness :
    CalculateLastPieceSize info5 =
      some (if info5.Length % info5.PieceSize = 0 then info5.PieceSize
              else info5.Length % info5.PieceSize,
            ⌈(info5.Length : ℚ) / (info5.PieceSize : ℚ)⌉) :=
  calculateLastPieceSize_spec info5 (by decide) (by decide)

/-- C1 fails as stated: `cexInfo` has `PieceSize = 2 > 0` and
`Length = -1`; Go's truncated `%` and `/` give `lastPieceSize = -1` and
`numberOfPieces = 1`, while `⌈Length / PieceSize⌉ = ⌈-1/2⌉ = 0`. -/
theorem calculateLastPieceSize_claim_counterexample :
    0 < cexInfo.PieceSize ∧
    CalculateLastPieceSize cexInfo = some (-1, 1) ∧
    ⌈(cexInfo.Length : ℚ) / (cexInfo.PieceSize : ℚ)⌉ = 0 ∧ (1 : ℤ) ≠ 0 := by
  refine ⟨by decide, by decide, ?_, by decide⟩
  show ⌈((-1 : ℤ) : ℚ) / ((2 : ℤ) : ℚ)⌉ = 0
  rw [show ((-1 : ℤ) : ℚ) / ((2 : ℤ) : ℚ) = -(1 / 2) by norm_num,
    Int.ceil_eq_iff]
  constructor <;> norm_num

theorem fromDict_eq_ok (d : List (GoStr × Bencode)) (k : GoStr) (v : Bencode)
    (h : fromDict d k = Except.ok v) : bdGet d k = some v := by
  cases hb : bdGet d k with
  | none =>
    unfold fromDict at h
    rw [hb] at h
    simp at h
  | some w =>
    unfold fromDict at h
    rw [hb] at h
    simp only [Except.ok.injEq] at h
    rw [h]

/-- C7: whenever `Decode` succeeds, the returned `InfoHash` is the SHA-1
digest (here: any 20-byte digest function, SHA-1 in the Go code) of the
re-encoded string form of the torrent's info dictionary. -/
theorem decode_infoHash (ext : ExternalFns)
    (hsha : ∀ x, (ext.sha1 x).length = 20) (ben : Bencode) (info : Info)
    (h : decodeBen ext ben = Except.ok info) :
    ∃ dict infoDict, ben = Bencode.bDict dict ∧
      bdGet dict (gs "info") = some (Bencode.bDict infoDict) ∧
      info.InfoHash = ext.sha1 (ext.encString (Bencode.bDict infoDict)) ∧
      info.InfoHash.length = 20 := by
  unfold decodeBen at h
  repeat' split at h
  any_goals simp only [reduceCtorEq] at h
  simp only [Except.ok.injEq] at h
  subst h
  refine ⟨_, _, rfl, fromDict_eq_ok _ (gs "info") _ (by assumption),
    rfl, hsha _⟩

theorem decode_infoHash_witness :
    ∃ dict infoDict, sampleBen = Bencode.bDict dict ∧
      bdGet dict (gs "info") = some (Bencode.bDict infoDict) ∧
      sampleInfo.InfoHash = stubExt.sha1 (stubExt.encString (Bencode.bDict infoDict)) ∧
      sampleInfo.InfoHash.length = 20 :=
  decode_infoHash stubExt (fun x => by simp [stubExt]) sampleBen sampleInfo
    (by rfl)

end GTorrent
